import Mathlib

/-!
Verification of the ThrowbackThursdayMonitor scraper pipeline.

The Python sources are shallowly embedded as executable Lean functions:
* `src/checker.py` — legacy static-HTML checker (`WebChecker`),
* `src/browser_scraper.py` — browser-based checker (`BrowserWebChecker`),
* `src/browser_automation/content_extractor.py` — field extraction
  (`ContentExtractor`).

Strings are modelled as `List Char` where character-level behaviour matters
(Python regex scanning, `str.split`, `str.strip`, lexicographic `>`); the
`String` wrappers only repackage lists.  Fallible steps return `Option`;
the places where the Python code raises (`None > str` comparison in
`WebChecker.go`; the call to the nonexistent `DiscordNotifier.send_embed`
in `BrowserWebChecker.go`) are modelled with `Except` and an explicit
outcome value.
-/

/-! ## Python string primitives -/

/-- Python's `\s` / `str.strip` whitespace class (ASCII range). -/
def isPyWs (c : Char) : Bool :=
  c = ' ' || c = '\t' || c = '\n' || c = '\r' || c = '\x0c' || c = '\x0b'

/-- Python `str.strip()` on a character list. -/
def pyStripL (l : List Char) : List Char :=
  ((l.dropWhile isPyWs).reverse.dropWhile isPyWs).reverse

/-- Python truthiness of an `Optional[str]` value: `None` and `""` are falsy. -/
def pyTruthy : Option String → Bool
  | none => false
  | some s => !s.toList.isEmpty

/-- Python string comparison `a < b`: lexicographic by code point. -/
def pyStrLt : List Char → List Char → Bool
  | [], [] => false
  | [], _ :: _ => true
  | _ :: _, [] => false
  | a :: as, b :: bs => if a < b then true else if b < a then false else pyStrLt as bs

/-- `pyStrLt` is exactly lexicographic ordering on character lists. -/
theorem pyStrLt_iff_lex (a b : List Char) :
    pyStrLt a b = true ↔ List.Lex (· < ·) a b := by
  induction a generalizing b with
  | nil =>
    cases b with
    | nil => simp [pyStrLt]
    | cons y ys =>
      constructor
      · intro _
        exact List.Lex.nil
      · intro _
        rfl
  | cons x xs ih =>
    cases b with
    | nil =>
      simp [pyStrLt]
    | cons y ys =>
      simp only [pyStrLt]
      rcases lt_trichotomy x y with h | h | h
      · simp [h]
        exact List.Lex.rel h
      · subst h
        simp [lt_irrefl]
        constructor
        · intro hxs
          exact List.Lex.cons ((ih ys).mp hxs)
        · intro hlex
          cases hlex with
          | cons htail => exact (ih ys).mpr htail
          | rel hrel => exact absurd hrel (lt_irrefl x)
      · have hxy : ¬ x < y := not_lt_of_gt h
        simp [hxy, h]
        intro hlex
        cases hlex with
        | cons _ => exact lt_irrefl x h
        | rel hrel => exact absurd h (not_lt_of_gt hrel)

theorem pyStrLt_irrefl (a : List Char) : pyStrLt a a = false := by
  induction a with
  | nil => rfl
  | cons x xs ih => simp [pyStrLt, lt_irrefl, ih]

theorem pyStrLt_nil_right (a : List Char) : pyStrLt a [] = false := by
  cases a <;> rfl

/-! ## Change detection

`BrowserWebChecker.go`, line 73:
`if db_last_changed_date is None or (site_last_changed_date and site_last_changed_date > db_last_changed_date):`

`WebChecker.go`, line 147 (legacy, no truthiness guard on the site marker):
`if db_last_changed_date is None or site_last_changed_date > db_last_changed_date:`
-/

/-- The extraction-gating condition of `BrowserWebChecker.go` (line 73). -/
def shouldExtract (siteLastChangedDate dbLastChangedDate : Option String) : Bool :=
  dbLastChangedDate.isNone ||
    (pyTruthy siteLastChangedDate &&
      match siteLastChangedDate, dbLastChangedDate with
      | some m, some s => pyStrLt s.toList m.toList
      | _, _ => false)

/-- The extraction-gating condition of the legacy `WebChecker.go` (line 147).
In Python, `None > str` raises `TypeError`; modelled as `Except.error`. -/
def legacyShouldExtract (siteLastChangedDate dbLastChangedDate : Option String) :
    Except String Bool :=
  match dbLastChangedDate with
  | none => .ok true
  | some s =>
    match siteLastChangedDate with
    | some m => .ok (pyStrLt s.toList m.toList)
    | none => .error "TypeError"

/-- `BrowserWebChecker._get_site_last_changed_date` (lines 134–146): returns the
`datetime` attribute of the marker element when found, otherwise falls back to
`datetime.now().isoformat()` (the current wall-clock time). -/
def getSiteLastChangedDate (markerAttr : Option String) (nowIso : String) : String :=
  match markerAttr with
  | some d => d
  | none => nowIso

/-- C1: for every stored marker `s` and site marker `m`, extraction proceeds
iff `s` is absent, or `m` is present and lexically greater than `s`; this holds
for the browser checker's condition and for the legacy checker's condition
(where "proceeds" means the comparison evaluates without raising and yields
true). -/
theorem change_detection_contract :
    (∀ site db : Option String,
      shouldExtract site db = true ↔
        (db = none ∨ ∃ m s : String, site = some m ∧ db = some s ∧
          List.Lex (· < ·) s.toList m.toList)) ∧
    (∀ site db : Option String,
      legacyShouldExtract site db = Except.ok true ↔
        (db = none ∨ ∃ m s : String, site = some m ∧ db = some s ∧
          List.Lex (· < ·) s.toList m.toList)) := by
  constructor
  · intro site db
    cases db with
    | none => simp [shouldExtract]
    | some s =>
      cases site with
      | none => simp [shouldExtract, pyTruthy]
      | some m =>
        simp only [shouldExtract, Option.isNone_some, Bool.false_or, pyTruthy]
        constructor
        · intro h
          rw [Bool.and_eq_true] at h
          exact Or.inr ⟨m, s, rfl, rfl, (pyStrLt_iff_lex _ _).mp h.2⟩
        · rintro (h | ⟨m', s', hm, hs, hlt⟩)
          · exact absurd h (by simp)
          · cases Option.some.inj hm
            cases Option.some.inj hs
            have hlt' := (pyStrLt_iff_lex s.toList m.toList).mpr hlt
            rw [Bool.and_eq_true]
            refine ⟨?_, hlt'⟩
            rw [Bool.not_eq_true']
            cases hm' : m.toList with
            | nil => rw [hm', pyStrLt_nil_right] at hlt'; cases hlt'
            | cons c cs => rfl
  · intro site db
    cases db with
    | none => simp [legacyShouldExtract]
    | some s =>
      cases site with
      | none => simp [legacyShouldExtract]
      | some m =>
        simp only [legacyShouldExtract, Except.ok.injEq]
        constructor
        · intro h
          exact Or.inr ⟨m, s, rfl, rfl, (pyStrLt_iff_lex _ _).mp h⟩
        · rintro (h | ⟨m', s', hm, hs, hlt⟩)
          · exact absurd h (by simp)
          · cases Option.some.inj hm
            cases Option.some.inj hs
            exact (pyStrLt_iff_lex _ _).mpr hlt

/-- C9: in the legacy checker, a stored marker together with a missing site
marker makes the comparison `None > str` raise `TypeError`; the run never
reaches the "not changed" conclusion (`ok false`). -/
theorem legacy_none_site_marker_raises (s : String) :
    legacyShouldExtract none (some s) = Except.error "TypeError" ∧
    ∀ b : Bool, legacyShouldExtract none (some s) ≠ Except.ok b := by
  constructor
  · rfl
  · intro b h
    cases h

/-- C8: when the marker element is missing, the browser checker's site marker
is the wall-clock timestamp, and any lexically smaller stored marker (i.e. any
marker recorded at an earlier instant, in the same ISO format) makes the
comparison report a change. -/
theorem wall_clock_fallback_defeats_dedup (nowIso stored : String)
    (hne : nowIso.toList ≠ []) (hlt : pyStrLt stored.toList nowIso.toList = true) :
    getSiteLastChangedDate none nowIso = nowIso ∧
    shouldExtract (some (getSiteLastChangedDate none nowIso)) (some stored) = true := by
  refine ⟨rfl, ?_⟩
  simp only [getSiteLastChangedDate, shouldExtract, pyTruthy, Option.isNone_some, Bool.false_or]
  rw [Bool.and_eq_true]
  refine ⟨?_, hlt⟩
  rw [Bool.not_eq_true']
  cases h : nowIso.toList with
  | nil => exact absurd h hne
  | cons c cs => rfl

theorem wall_clock_fallback_defeats_dedup_witness :
    getSiteLastChangedDate none "2026-02-26T10:00:00" = "2026-02-26T10:00:00" ∧
    shouldExtract (some (getSiteLastChangedDate none "2026-02-26T10:00:00"))
      (some "2025-12-31T23:59:59") = true :=
  wall_clock_fallback_defeats_dedup "2026-02-26T10:00:00" "2025-12-31T23:59:59"
    (by decide) (by decide)

/-! ## The JSON state store

`db.json` is a JSON object; `open_db_file` returns `{}` when the file is
missing; `go` mutates exactly the keys `last_changed_date` and
`latest_movie_data` before writing the object back
(`browser_scraper.py` lines 104–107, `checker.py` lines 176–179).
A JSON object is modelled as an association list; Python dict assignment
replaces the value of an existing key in place and otherwise appends.
-/

inductive JVal where
  | jnull
  | jstr (s : String)
  | jobj (fields : List (String × JVal))

/-- Python dict assignment `obj[k] = v` on a JSON object. -/
def setKey (obj : List (String × JVal)) (k : String) (v : JVal) : List (String × JVal) :=
  match obj with
  | [] => [(k, v)]
  | (k', v') :: rest => if k' = k then (k, v) :: rest else (k', v') :: setKey rest k v

/-- Python `obj.get(k)` on a JSON object. -/
def getKey (obj : List (String × JVal)) (k : String) : Option JVal :=
  match obj with
  | [] => none
  | (k', v') :: rest => if k' = k then some v' else getKey rest k

theorem getKey_setKey_same (obj : List (String × JVal)) (k : String) (v : JVal) :
    getKey (setKey obj k v) k = some v := by
  induction obj with
  | nil => simp [setKey, getKey]
  | cons p rest ih =>
    by_cases h : p.1 = k
    · simp [setKey, getKey, h]
    · simp [setKey, getKey, h, ih]

theorem getKey_setKey_other (obj : List (String × JVal)) (k k' : String) (v : JVal)
    (h : k' ≠ k) : getKey (setKey obj k v) k' = getKey obj k' := by
  induction obj with
  | nil => simp [setKey, getKey, Ne.symm h]
  | cons p rest ih =>
    by_cases hp : p.1 = k
    · simp [setKey, getKey, hp, Ne.symm h]
    · by_cases hp' : p.1 = k'
      · simp [setKey, getKey, hp, hp', h]
      · simp [setKey, getKey, hp, hp', ih]

/-! ## Movie data and the write-and-notify step -/

/-- `models.MovieData` (the `extracted_at : datetime` bookkeeping field is
omitted; no claim concerns it). -/
structure MovieData where
  title : Option String := none
  screening_datetime : Option String := none
  location : Option String := none
  booking_url : Option String := none
  movie_url : Option String := none
  source_url : Option String := none
deriving DecidableEq

/-- The legacy dict produced by `BrowserWebChecker._convert_to_legacy_format`. -/
structure LegacyData where
  title : Option String
  screening_datetime : Option String
  location : Option String
  booking_url : Option String
  movie_url : Option String
deriving DecidableEq

/-- Python `a or b` on optional strings (used for `movie_url or source_url`). -/
def pyOrElse (a b : Option String) : Option String :=
  if pyTruthy a then a else b

/-- `BrowserWebChecker._convert_to_legacy_format` (lines 169–177). -/
def convertToLegacyFormat (m : MovieData) : LegacyData :=
  { title := m.title
    screening_datetime := m.screening_datetime
    location := m.location
    booking_url := m.booking_url
    movie_url := pyOrElse m.movie_url m.source_url }

/-- JSON encoding of an optional string field. -/
def optStrToJVal : Option String → JVal
  | none => .jnull
  | some s => .jstr s

/-- JSON encoding of the `latest_movie_data` dict. -/
def legacyToJVal (d : LegacyData) : JVal :=
  .jobj [("title", optStrToJVal d.title),
         ("screening_datetime", optStrToJVal d.screening_datetime),
         ("location", optStrToJVal d.location),
         ("booking_url", optStrToJVal d.booking_url),
         ("movie_url", optStrToJVal d.movie_url)]

/-- The methods `DiscordNotifier` (`discord_notifier.py`) defines: only
`__init__` and `send_message`.  In particular there is no `send_embed`. -/
def discordNotifierMethods : List String := ["__init__", "send_message"]

/-- Python attribute lookup `self.notifier.<method>(...)`: raises
`AttributeError` when the notifier defines no such method. -/
def callNotifier (method : String) : Except String Unit :=
  if discordNotifierMethods.contains method then .ok () else .error "AttributeError"

/-- Outcome of the notification step of a changed run. -/
inductive SendOutcome where
  /-- the screening embed was handed to the webhook -/
  | embedSent
  /-- the send raised (in the program: `AttributeError`, since
  `DiscordNotifier` has no `send_embed`); the exception propagates to the
  outer `except` of `go`, which reports it through `send_message` -/
  | attrError
  /-- incomplete data: notification suppressed, only a warning logged -/
  | skipped
deriving DecidableEq

/-- Lines 104–122 of `BrowserWebChecker.go`: inside the changed branch, after a
movie URL was found — update the database (both keys, unconditionally), then,
iff all four required fields are truthy, call
`self.notifier.send_embed(embed)` (line 118).  `DiscordNotifier` has no
`send_embed` method, so that call raises `AttributeError` rather than sending.
Returns the written database object and the outcome of the send step. -/
def goUpdateAndNotify (db : List (String × JVal)) (siteMarker : Option String)
    (legacyData : LegacyData) : List (String × JVal) × SendOutcome :=
  let db1 := setKey db "last_changed_date" (optStrToJVal siteMarker)
  let db2 := setKey db1 "latest_movie_data" (legacyToJVal legacyData)
  (db2,
   if pyTruthy legacyData.title && pyTruthy legacyData.screening_datetime &&
      pyTruthy legacyData.location && pyTruthy legacyData.booking_url then
     match callNotifier "send_embed" with
     | Except.ok _ => SendOutcome.embedSent
     | Except.error _ => SendOutcome.attrError
   else SendOutcome.skipped)

/-- C2 (code bug): on a changed run with all four fields extracted, the marker
and the record are persisted (lines 104–107) and the code then calls
`self.notifier.send_embed(embed)` (line 118) — but `DiscordNotifier` defines no
`send_embed`, so the call raises `AttributeError` and the claimed webhook
notification is never sent (the outer `except` of `go` reports the failure via
`send_message` instead).  An incomplete record skips the send as claimed, both
keys are always persisted, and no input at all can produce a sent embed. -/
theorem notification_send_embed_attribute_error :
    (goUpdateAndNotify [] (some "2026-02-26T08:00:00")
        ⟨some "Casablanca", some "2026-02-26 19:00", some "Borås Bio Röda Kvarn",
         some "https://example.com/boka/1", some "https://example.com/m"⟩).2 =
      SendOutcome.attrError ∧
    (∀ (db : List (String × JVal)) (marker : Option String) (d : LegacyData),
      getKey (goUpdateAndNotify db marker d).1 "latest_movie_data" =
        some (legacyToJVal d)) ∧
    (∀ (db : List (String × JVal)) (marker : Option String) (d : LegacyData),
      getKey (goUpdateAndNotify db marker d).1 "last_changed_date" =
        some (optStrToJVal marker)) ∧
    (∀ (db : List (String × JVal)) (marker : Option String) (d : LegacyData),
      (pyTruthy d.title && pyTruthy d.screening_datetime &&
       pyTruthy d.location && pyTruthy d.booking_url) = false →
      (goUpdateAndNotify db marker d).2 = SendOutcome.skipped) ∧
    (∀ (db : List (String × JVal)) (marker : Option String) (d : LegacyData),
      (goUpdateAndNotify db marker d).2 ≠ SendOutcome.embedSent) ∧
    "send_embed" ∉ discordNotifierMethods := by
  refine ⟨by decide, ?_, ?_, ?_, ?_, by decide⟩
  · intro db marker d
    exact getKey_setKey_same _ _ _
  · intro db marker d
    simp only [goUpdateAndNotify]
    rw [getKey_setKey_other _ _ _ _ (by decide), getKey_setKey_same]
  · intro db marker d h
    simp [goUpdateAndNotify, h]
  · intro db marker d
    simp only [goUpdateAndNotify]
    by_cases h : (pyTruthy d.title && pyTruthy d.screening_datetime &&
        pyTruthy d.location && pyTruthy d.booking_url) = true
    · rw [if_pos h]
      decide
    · rw [if_neg h]
      decide

/-- C10: the database write of a changed run touches only the two keys
`last_changed_date` and `latest_movie_data`; every other key keeps its value. -/
theorem state_write_frame (db : List (String × JVal)) (marker : Option String)
    (d : LegacyData) (k : String)
    (h1 : k ≠ "last_changed_date") (h2 : k ≠ "latest_movie_data") :
    getKey (goUpdateAndNotify db marker d).1 k = getKey db k := by
  simp only [goUpdateAndNotify]
  rw [getKey_setKey_other _ _ _ _ h2, getKey_setKey_other _ _ _ _ h1]

theorem state_write_frame_witness :
    getKey (goUpdateAndNotify [("config", JVal.jstr "keep")] (some "2026-01-01T00:00:00")
        ⟨some "T", some "D", some "L", some "B", some "M"⟩).1 "config" =
      getKey [("config", JVal.jstr "keep")] "config" :=
  state_write_frame [("config", JVal.jstr "keep")] (some "2026-01-01T00:00:00")
    ⟨some "T", some "D", some "L", some "B", some "M"⟩ "config" (by decide) (by decide)

/-! ## The pipeline run (`BrowserWebChecker.go`) -/

/-- `get_db_last_changed_date`: `json_data.get('last_changed_date')`.  The
stored value is a string (or JSON null when absent); anything else is not a
usable marker. -/
def getDbLastChangedDate (db : List (String × JVal)) : Option String :=
  match getKey db "last_changed_date" with
  | some (JVal.jstr s) => some s
  | _ => none

structure RunResult where
  db : List (String × JVal)
  /-- screening-embed notifications actually sent -/
  embedNotifications : Nat
  /-- error reports dispatched by the outer `except` of `go` -/
  errorReports : Nat
  extracted : Bool

/-- One invocation of `BrowserWebChecker.go` (lines 45–132), parameterised by
the page observations of that run: the site marker (always present in the
browser checker, see `getSiteLastChangedDate`), whether a movie URL was found
on the main page, and the extracted movie data.  When the send step raises
(`AttributeError` from the missing `send_embed`), the exception is caught by
the outer `except`, which dispatches an error report — after the database file
was already written. -/
def runOnce (siteMarker : String) (movieFound : Bool) (movieData : MovieData)
    (db : List (String × JVal)) : RunResult :=
  if shouldExtract (some siteMarker) (getDbLastChangedDate db) then
    if movieFound then
      let legacyData := convertToLegacyFormat movieData
      let p := goUpdateAndNotify db (some siteMarker) legacyData
      match p.2 with
      | SendOutcome.embedSent =>
        { db := p.1, embedNotifications := 1, errorReports := 0, extracted := true }
      | SendOutcome.attrError =>
        { db := p.1, embedNotifications := 0, errorReports := 1, extracted := true }
      | SendOutcome.skipped =>
        { db := p.1, embedNotifications := 0, errorReports := 0, extracted := true }
    else
      { db := db, embedNotifications := 0, errorReports := 0, extracted := true }
  else
    { db := db, embedNotifications := 0, errorReports := 0, extracted := false }

/-- C7 (code bug): two successive runs against an unchanged site marker
produce not the claimed one notification but zero — the first run detects the
change, writes the state, and then its send raises `AttributeError` (the
missing `send_embed`), so an error report goes out instead of the screening
embed; the second run is, as claimed, detected as unchanged and performs no
extraction, no state write and no notification.  The first conjunct is the
general second-run no-op; the rest evaluate the program on the concrete
failing input. -/
theorem pipeline_two_runs_no_embed :
    (∀ (m : String) (found : Bool) (md : MovieData) (db : List (String × JVal)),
      getDbLastChangedDate db = some m →
      runOnce m found md db =
        { db := db, embedNotifications := 0, errorReports := 0, extracted := false }) ∧
    (runOnce "2026-02-26T19:00:00" true
      ⟨some "Casablanca", some "2026-02-26 19:00", some "Borås Bio Röda Kvarn",
       some "https://example.com/boka/1", some "https://example.com/movie", none⟩
      []).embedNotifications = 0 ∧
    (runOnce "2026-02-26T19:00:00" true
      ⟨some "Casablanca", some "2026-02-26 19:00", some "Borås Bio Röda Kvarn",
       some "https://example.com/boka/1", some "https://example.com/movie", none⟩
      []).errorReports = 1 ∧
    getDbLastChangedDate (runOnce "2026-02-26T19:00:00" true
      ⟨some "Casablanca", some "2026-02-26 19:00", some "Borås Bio Röda Kvarn",
       some "https://example.com/boka/1", some "https://example.com/movie", none⟩
      []).db = some "2026-02-26T19:00:00" ∧
    (runOnce "2026-02-26T19:00:00" true
      ⟨some "Casablanca", some "2026-02-26 19:00", some "Borås Bio Röda Kvarn",
       some "https://example.com/boka/1", some "https://example.com/movie", none⟩
      (runOnce "2026-02-26T19:00:00" true
        ⟨some "Casablanca", some "2026-02-26 19:00", some "Borås Bio Röda Kvarn",
         some "https://example.com/boka/1", some "https://example.com/movie", none⟩
        []).db).extracted = false ∧
    (runOnce "2026-02-26T19:00:00" true
      ⟨some "Casablanca", some "2026-02-26 19:00", some "Borås Bio Röda Kvarn",
       some "https://example.com/boka/1", some "https://example.com/movie", none⟩
      (runOnce "2026-02-26T19:00:00" true
        ⟨some "Casablanca", some "2026-02-26 19:00", some "Borås Bio Röda Kvarn",
         some "https://example.com/boka/1", some "https://example.com/movie", none⟩
        []).db).db =
      (runOnce "2026-02-26T19:00:00" true
        ⟨some "Casablanca", some "2026-02-26 19:00", some "Borås Bio Röda Kvarn",
         some "https://example.com/boka/1", some "https://example.com/movie", none⟩
        []).db ∧
    (runOnce "2026-02-26T19:00:00" true
      ⟨some "Casablanca", some "2026-02-26 19:00", some "Borås Bio Röda Kvarn",
       some "https://example.com/boka/1", some "https://example.com/movie", none⟩
      []).embedNotifications +
      (runOnce "2026-02-26T19:00:00" true
        ⟨some "Casablanca", some "2026-02-26 19:00", some "Borås Bio Röda Kvarn",
         some "https://example.com/boka/1", some "https://example.com/movie", none⟩
        (runOnce "2026-02-26T19:00:00" true
          ⟨some "Casablanca", some "2026-02-26 19:00", some "Borås Bio Röda Kvarn",
           some "https://example.com/boka/1", some "https://example.com/movie", none⟩
          []).db).embedNotifications = 0 ∧
    (runOnce "2026-02-26T19:00:00" true
      ⟨some "Casablanca", some "2026-02-26 19:00", some "Borås Bio Röda Kvarn",
       some "https://example.com/boka/1", some "https://example.com/movie", none⟩
      []).embedNotifications +
      (runOnce "2026-02-26T19:00:00" true
        ⟨some "Casablanca", some "2026-02-26 19:00", some "Borås Bio Röda Kvarn",
         some "https://example.com/boka/1", some "https://example.com/movie", none⟩
        (runOnce "2026-02-26T19:00:00" true
          ⟨some "Casablanca", some "2026-02-26 19:00", some "Borås Bio Röda Kvarn",
           some "https://example.com/boka/1", some "https://example.com/movie", none⟩
          []).db).embedNotifications ≠ 1 := by
  have hnoop : ∀ (m : String) (found : Bool) (md : MovieData) (db : List (String × JVal)),
      getDbLastChangedDate db = some m →
      runOnce m found md db =
        { db := db, embedNotifications := 0, errorReports := 0, extracted := false } := by
    intro m found md db hmark
    have hno : shouldExtract (some m) (getDbLastChangedDate db) = false := by
      rw [hmark]
      simp only [shouldExtract, Option.isNone_some, Bool.false_or]
      rw [pyStrLt_irrefl]
      exact Bool.and_false _
    simp [runOnce, hno]
  have hmark1 : getDbLastChangedDate (runOnce "2026-02-26T19:00:00" true
      ⟨some "Casablanca", some "2026-02-26 19:00", some "Borås Bio Röda Kvarn",
       some "https://example.com/boka/1", some "https://example.com/movie", none⟩
      []).db = some "2026-02-26T19:00:00" := by decide
  have h2 := hnoop "2026-02-26T19:00:00" true
    ⟨some "Casablanca", some "2026-02-26 19:00", some "Borås Bio Röda Kvarn",
     some "https://example.com/boka/1", some "https://example.com/movie", none⟩
    _ hmark1
  refine ⟨hnoop, by decide, by decide, hmark1, ?_, ?_, ?_, ?_⟩
  · rw [h2]
  · rw [h2]
  · rw [h2]
    decide
  · rw [h2]
    decide

/-! ## Title cleaning (`ContentExtractor._clean_movie_title`, lines 110–142)

The three regexes are embedded with Python `re` search semantics
(leftmost match; `.` matches any character except a newline; lazy
groups take the shortest match; greedy `\s*` backtracks longest-first).
-/

/-- Characters up to the next `"` provided no newline intervenes (the body of
the lazy group in `re.search(r'"(.*?)"', ...)` once an opening quote is
fixed). -/
def scanQuote : List Char → Option (List Char)
  | [] => none
  | c :: rest =>
    if c = '"' then some []
    else if c = '\n' then none
    else (scanQuote rest).map (c :: ·)

/-- `re.search(r'"(.*?)"', raw)`: content of the leftmost double-quoted
newline-free substring. -/
def firstQuoted : List Char → Option (List Char)
  | [] => none
  | c :: rest =>
    if c = '"' then
      match scanQuote rest with
      | some content => some content
      | none => firstQuoted rest
    else firstQuoted rest

def throwbackLabel : List Char := "Throwback Thursday:".toList

/-- Length of the maximal leading run of `\s` characters. -/
def countLeadingWs : List Char → Nat
  | [] => 0
  | c :: rest => if isPyWs c then countLeadingWs rest + 1 else 0

/-- Length of the maximal leading run of non-newline characters (the furthest
`.` can reach). -/
def nonNlLen : List Char → Nat
  | [] => 0
  | c :: rest => if c = '\n' then 0 else nonNlLen rest + 1

/-- Does the list start with `\(\d{4}\)`? -/
def matchYearParen : List Char → Bool
  | '(' :: d1 :: d2 :: d3 :: d4 :: ')' :: _ =>
    d1.isDigit && d2.isDigit && d3.isDigit && d4.isDigit
  | _ => false

/-- `\s*\(\d{4}\)` at the head of the list (the `\s*` cannot backtrack since
`(` is not whitespace). -/
def wsThenYear (v : List Char) : Bool :=
  matchYearParen (v.drop (countLeadingWs v))

/-- The lazy group `(.+?)` tries lengths `b, b+1, ...` (shortest first, never
crossing a newline) until `\s*\(\d{4}\)` matches after it. -/
def findBAux : Nat → Nat → List Char → Option Nat
  | 0, _, _ => none
  | fuel + 1, b, u => if wsThenYear (u.drop b) then some b else findBAux fuel (b + 1) u

def findB (u : List Char) : Option Nat :=
  findBAux (nonNlLen u) 1 u

/-- The greedy `\s*` after the label tries the longest whitespace run first
(`a` down to `0`); for each, the lazy group is resolved by `findB`. -/
def tryA : Nat → List Char → Option (List Char)
  | 0, t => (findB t).map (fun b => t.take b)
  | a + 1, t =>
    match findB (t.drop (a + 1)) with
    | some b => some ((t.drop (a + 1)).take b)
    | none => tryA a t

/-- `re.search(r'Throwback Thursday:\s*(.+?)\s*\(\d{4}\)', raw)`: group 1 of
the leftmost occurrence of the label at which the full pattern matches. -/
def searchThrowback : List Char → Option (List Char)
  | [] => none
  | c :: rest =>
    if throwbackLabel.isPrefixOf (c :: rest) then
      match tryA (countLeadingWs ((c :: rest).drop throwbackLabel.length))
          ((c :: rest).drop throwbackLabel.length) with
      | some g => some g
      | none => searchThrowback rest
    else searchThrowback rest

/-- `raw.split('Throwback Thursday:', 1)[1]`: the text after the first label
occurrence (`none` when the label does not occur, i.e. `len(parts) == 1`). -/
def afterLabel : List Char → Option (List Char)
  | [] => none
  | c :: rest =>
    if throwbackLabel.isPrefixOf (c :: rest) then
      some ((c :: rest).drop throwbackLabel.length)
    else afterLabel rest

/-- One match of `\s*\(\d{4}\)\s*` anchored at the head: remainder after the
match, or `none`.  Both `\s*` are effectively deterministic (maximal) because
`(` is not whitespace and nothing follows the trailing `\s*`. -/
def yearBlockRem (t : List Char) : Option (List Char) :=
  let u := t.drop (countLeadingWs t)
  if matchYearParen u then
    some ((u.drop 6).drop (countLeadingWs (u.drop 6)))
  else none

/-- `re.sub(r'\s*\(\d{4}\)\s*', '', title)`: left-to-right scan removing every
non-overlapping match.  Each match consumes at least six characters, so
`t.length` is enough fuel. -/
def removeYearBlocksF : Nat → List Char → List Char
  | 0, t => t
  | _ + 1, [] => []
  | fuel + 1, c :: rest =>
    match yearBlockRem (c :: rest) with
    | some rem => removeYearBlocksF fuel rem
    | none => c :: removeYearBlocksF fuel rest

def removeYearBlocks (t : List Char) : List Char :=
  removeYearBlocksF t.length t

/-- `ContentExtractor._clean_movie_title` (lines 110–142). -/
def cleanMovieTitleL (raw : List Char) : Option (List Char) :=
  if raw.isEmpty then none
  else
    match firstQuoted raw with
    | some content => some content
    | none =>
      match searchThrowback raw with
      | some g => some (pyStripL g)
      | none =>
        match afterLabel raw with
        | some tail => some (pyStripL (removeYearBlocks (pyStripL tail)))
        | none => some (pyStripL raw)

def cleanMovieTitle (raw : String) : Option String :=
  (cleanMovieTitleL raw.toList).map String.mk

/-- Title cleaning as the specification words it (refinement comparison): the
fallback case removes only a *trailing* parenthesized 4-digit year, where the
code removes every such year block. -/
def removeTrailingYearSpec (t : List Char) : List Char :=
  match t.reverse.dropWhile isPyWs with
  | ')' :: d4 :: d3 :: d2 :: d1 :: '(' :: rest =>
    if d1.isDigit && d2.isDigit && d3.isDigit && d4.isDigit then rest.reverse else t
  | _ => t

/-- The claim's reading of `_clean_movie_title`: identical cascade, but with
only a trailing parenthesized year removed in the label-without-year case. -/
def cleanTitleClaimL (raw : List Char) : Option (List Char) :=
  if raw.isEmpty then none
  else
    match firstQuoted raw with
    | some content => some content
    | none =>
      match searchThrowback raw with
      | some g => some (pyStripL g)
      | none =>
        match afterLabel raw with
        | some t => some (pyStripL (removeTrailingYearSpec (pyStripL t)))
        | none => some (pyStripL raw)

def cleanTitleClaim (raw : String) : Option String :=
  (cleanTitleClaimL raw.toList).map String.mk

theorem noQuote_firstQuoted_none (raw : List Char) (h : ∀ c ∈ raw, c ≠ '"') :
    firstQuoted raw = none := by
  induction raw with
  | nil => rfl
  | cons c rest ih =>
    have hc : c ≠ '"' := h c (List.mem_cons_self c rest)
    simp only [firstQuoted, if_neg hc]
    exact ih (fun x hx => h x (List.mem_cons_of_mem c hx))

theorem afterLabel_none_searchThrowback_none (raw : List Char)
    (h : afterLabel raw = none) : searchThrowback raw = none := by
  induction raw with
  | nil => rfl
  | cons c rest ih =>
    by_cases hp : throwbackLabel.isPrefixOf (c :: rest) = true
    · rw [afterLabel, if_pos hp] at h
      cases h
    · rw [afterLabel, if_neg hp] at h
      rw [searchThrowback, if_neg hp]
      exact ih h

/-- C3 counterexample: on `"Throwback Thursday:(1999) B"` the code removes the
non-trailing `(1999)` block and returns `"B"`, while the claim's
trailing-year-only reading keeps it. -/
theorem clean_title_trailing_only_counterexample :
    cleanMovieTitle "Throwback Thursday:(1999) B" = some "B" ∧
    cleanTitleClaim "Throwback Thursday:(1999) B" = some "(1999) B" ∧
    cleanMovieTitle "Throwback Thursday:(1999) B" ≠
      cleanTitleClaim "Throwback Thursday:(1999) B" := by
  refine ⟨by decide, by decide, by decide⟩

/-- C3 (amended): the cleaner returns (1) the content of the first
double-quoted (newline-free) substring when one exists; else (2) the trimmed
lazy-group match of `label: title (year)`; else (3), when the label occurs,
the text after the label with *every* whitespace-padded parenthesized 4-digit
year removed, trimmed; else (4) the trimmed raw text — and the three
spec examples all clean to `"Casablanca"`. -/
theorem clean_movie_title_spec :
    cleanMovieTitle "Throwback Thursday: Casablanca (1942)" = some "Casablanca" ∧
    cleanMovieTitle "\"Casablanca\"" = some "Casablanca" ∧
    cleanMovieTitle "Throwback Thursday: Casablanca" = some "Casablanca" ∧
    (∀ raw q : List Char, firstQuoted raw = some q → cleanMovieTitleL raw = some q) ∧
    (∀ raw g : List Char, (∀ c ∈ raw, c ≠ '"') → searchThrowback raw = some g →
      cleanMovieTitleL raw = some (pyStripL g)) ∧
    (∀ raw t : List Char, (∀ c ∈ raw, c ≠ '"') → searchThrowback raw = none →
      afterLabel raw = some t →
      cleanMovieTitleL raw = some (pyStripL (removeYearBlocks (pyStripL t)))) ∧
    (∀ raw : List Char, raw ≠ [] → (∀ c ∈ raw, c ≠ '"') → afterLabel raw = none →
      cleanMovieTitleL raw = some (pyStripL raw)) := by
  refine ⟨by decide, by decide, by decide, ?_, ?_, ?_, ?_⟩
  · intro raw q h
    cases raw with
    | nil => cases h
    | cons c rest => simp [cleanMovieTitleL, h]
  · intro raw g hq h
    cases raw with
    | nil => cases h
    | cons c rest =>
      simp [cleanMovieTitleL, noQuote_firstQuoted_none _ hq, h]
  · intro raw t hq hsearch hafter
    cases raw with
    | nil => cases hafter
    | cons c rest =>
      simp [cleanMovieTitleL, noQuote_firstQuoted_none _ hq, hsearch, hafter]
  · intro raw hne hq hafter
    cases raw with
    | nil => exact absurd rfl hne
    | cons c rest =>
      simp [cleanMovieTitleL, noQuote_firstQuoted_none _ hq,
            afterLabel_none_searchThrowback_none _ hafter, hafter]

/-! ## Datetime extraction
(`ContentExtractor._extract_datetime_from_text`, lines 196–226) -/

/-- Exactly `n` digits at the head: the digits and the remainder. -/
def takeDigits : Nat → List Char → Option (List Char × List Char)
  | 0, l => some ([], l)
  | _ + 1, [] => none
  | n + 1, c :: rest =>
    if c.isDigit then (takeDigits n rest).map (fun p => (c :: p.1, p.2)) else none

/-- One literal character. -/
def matchCh (c : Char) : List Char → Option (List Char)
  | [] => none
  | c' :: rest => if c' = c then some rest else none

/-- Greedy `\d{1,2}`: two digits if possible, else one.  Backtracking from two
digits to one is vacuous here because in both regexes the character after the
group (`.` or `\s`) can never be a digit. -/
def takeOneTwoDigits (r : List Char) : Option (List Char × List Char) :=
  match takeDigits 2 r with
  | some p => some p
  | none => takeDigits 1 r

/-- Python `str.zfill(2)`. -/
def zfill2 (s : List Char) : List Char :=
  List.replicate (2 - s.length) '0' ++ s

/-- `(\d{4}-\d{2}-\d{2})\s+(\d{1,2})\.(\d{2})` anchored at the head; on a
match, the code's output `f"{date_part} {hour.zfill(2)}:{minute}"`. -/
def matchIsoFull (t : List Char) : Option (List Char) := do
  let (y, r1) ← takeDigits 4 t
  let r2 ← matchCh '-' r1
  let (mo, r3) ← takeDigits 2 r2
  let r4 ← matchCh '-' r3
  let (d, r5) ← takeDigits 2 r4
  let w := countLeadingWs r5
  if w = 0 then none
  else do
    let (h, rh) ← takeOneTwoDigits (r5.drop w)
    let rdot ← matchCh '.' rh
    let (mi, _) ← takeDigits 2 rdot
    some (y ++ '-' :: mo ++ '-' :: d ++ ' ' :: (zfill2 h ++ ':' :: mi))

/-- `re.search` of the ISO pattern: leftmost match wins. -/
def scanIso : List Char → Option (List Char)
  | [] => none
  | c :: rest =>
    match matchIsoFull (c :: rest) with
    | some f => some f
    | none => scanIso rest

/-- The fixed Swedish month lexicon of `_extract_datetime_from_text`, in the
regex alternation order (no name is a prefix of another). -/
def monthMap : List (List Char × List Char) :=
  [("januari".toList, "01".toList), ("februari".toList, "02".toList),
   ("mars".toList, "03".toList), ("april".toList, "04".toList),
   ("maj".toList, "05".toList), ("juni".toList, "06".toList),
   ("juli".toList, "07".toList), ("augusti".toList, "08".toList),
   ("september".toList, "09".toList), ("oktober".toList, "10".toList),
   ("november".toList, "11".toList), ("december".toList, "12".toList)]

/-- First alternative of the month alternation that matches at the head. -/
def matchMonthName : List (List Char × List Char) → List Char →
    Option (List Char × List Char)
  | [], _ => none
  | (name, _) :: ns, t =>
    if name.isPrefixOf t then some (name, t.drop name.length)
    else matchMonthName ns t

/-- `month_map.get(month_name, '01')`: the dict lookup with its silent `'01'`
default (unreachable through the regex, whose alternation only produces the
twelve keys). -/
def monthMapGet (name : List Char) : List Char :=
  match monthMap.find? (fun p => p.1 == name) with
  | some p => p.2
  | none => "01".toList

/-- `(\d{1,2})\s+(januari|…|december)\s+(\d{1,2})\.(\d{2})` anchored at the
head of the lowercased text; on a match, the code's output
`f"{year}-{month.zfill(2)}-{day.zfill(2)} {hour.zfill(2)}:{minute}"` with the
current year assumed. -/
def matchSwedishFull (year : Nat) (t : List Char) : Option (List Char) := do
  let (day, r1) ← takeOneTwoDigits t
  let w1 := countLeadingWs r1
  if w1 = 0 then none
  else do
    let (mname, r2) ← matchMonthName monthMap (r1.drop w1)
    let w2 := countLeadingWs r2
    if w2 = 0 then none
    else do
      let (h, r3) ← takeOneTwoDigits (r2.drop w2)
      let r4 ← matchCh '.' r3
      let (mi, _) ← takeDigits 2 r4
      some ((toString year).toList ++ '-' :: zfill2 (monthMapGet mname) ++
            '-' :: zfill2 day ++ ' ' :: (zfill2 h ++ ':' :: mi))

/-- `re.search` of the Swedish pattern: leftmost match wins. -/
def scanSwedish (year : Nat) : List Char → Option (List Char)
  | [] => none
  | c :: rest =>
    match matchSwedishFull year (c :: rest) with
    | some f => some f
    | none => scanSwedish year rest

/-- `ContentExtractor._extract_datetime_from_text` (lines 196–226).  The ISO
pattern is searched on the text as given, the Swedish pattern on
`text.lower()`; `datetime.now().year` is a parameter. -/
def extractDatetimeFromText (year : Nat) (text : String) : Option String :=
  if text.toList.isEmpty then none
  else
    match scanIso text.toList with
    | some f => some (String.mk f)
    | none => (scanSwedish year (text.toList.map Char.toLower)).map String.mk

theorem matchIsoFull_head_not_digit (c : Char) (rest : List Char)
    (h : c.isDigit = false) : matchIsoFull (c :: rest) = none := by
  simp [matchIsoFull, takeDigits, h]

theorem scanIso_no_digit (l : List Char) (h : ∀ c ∈ l, c.isDigit = false) :
    scanIso l = none := by
  induction l with
  | nil => rfl
  | cons c rest ih =>
    have hm := matchIsoFull_head_not_digit c rest (h c (List.mem_cons_self c rest))
    simp only [scanIso, hm]
    exact ih (fun x hx => h x (List.mem_cons_of_mem c hx))

theorem matchSwedishFull_head_not_digit (y : Nat) (c : Char) (rest : List Char)
    (h : c.isDigit = false) : matchSwedishFull y (c :: rest) = none := by
  simp [matchSwedishFull, takeOneTwoDigits, takeDigits, h]

theorem scanSwedish_no_digit (y : Nat) (l : List Char)
    (h : ∀ c ∈ l, c.isDigit = false) : scanSwedish y l = none := by
  induction l with
  | nil => rfl
  | cons c rest ih =>
    have hm := matchSwedishFull_head_not_digit y c rest (h c (List.mem_cons_self c rest))
    simp only [scanSwedish, hm]
    exact ih (fun x hx => h x (List.mem_cons_of_mem c hx))

/-- C4: an ISO-like `YYYY-MM-DD H.MM` / `HH.MM` substring is reformatted with
the hour zero-padded; otherwise a Swedish `D month_name H.MM` substring (after
lowercasing) is reformatted with the given current year, day and hour
zero-padded, and the month lookup defaulting to `"01"` for names outside the
table; with no digit in the text (hence no match of either pattern) the result
is absent. -/
theorem extract_datetime_spec :
    extractDatetimeFromText 2026 "2026-02-26 19.00" = some "2026-02-26 19:00" ∧
    extractDatetimeFromText 2026 "26 februari 19.00" = some "2026-02-26 19:00" ∧
    extractDatetimeFromText 2026 "Tid: 2026-02-26 9.05 i salongen" = some "2026-02-26 09:05" ∧
    extractDatetimeFromText 2026 "5 Maj 9.30" = some "2026-05-05 09:30" ∧
    monthMapGet "unknown".toList = "01".toList ∧
    extractDatetimeFromText 2026 "26 bananas 19.00" = none ∧
    (∀ (y : Nat) (t : String),
      (∀ c ∈ t.toList, c.isDigit = false ∧ (Char.toLower c).isDigit = false) →
      extractDatetimeFromText y t = none) := by
  refine ⟨by decide, by decide, by decide, by decide, by decide, by decide, ?_⟩
  intro y t hd
  have h1 : scanIso t.toList = none :=
    scanIso_no_digit _ (fun c hc => (hd c hc).1)
  have h2 : scanSwedish y (t.toList.map Char.toLower) = none := by
    apply scanSwedish_no_digit
    intro c' hc'
    rcases List.mem_map.mp hc' with ⟨c, hc, rfl⟩
    exact (hd c hc).2
  simp only [String.toList] at h1 h2
  simp [extractDatetimeFromText, String.toList, h1, h2]

/-! ## Booking-URL resolution
(`ContentExtractor._extract_booking_url`, lines 263–290; the same arithmetic
appears in `BrowserWebChecker._get_movie_url`) -/

/-- Python `url.split('/')`. -/
def splitSl : List Char → List (List Char)
  | [] => [[]]
  | c :: rest =>
    if c = '/' then [] :: splitSl rest
    else
      match splitSl rest with
      | [] => [[c]]
      | p :: ps => (c :: p) :: ps

/-- Python `'/'.join(parts)`. -/
def joinSl : List (List Char) → List Char
  | [] => []
  | [p] => p
  | p :: q :: ps => p ++ '/' :: joinSl (q :: ps)

/-- Lines 273–279: a site-relative target (leading `/`) is prefixed with
`f"{url.split('/')[0]}//{url.split('/')[2]}"`; a target that is not absolute
(does not start with `http`) is prefixed with `'/'.join(url.split('/')[:-1])`
and a slash; anything else is returned unchanged.  Python list indexing
raises on URLs with fewer than three `/`-separated parts; `getD` is only
evaluated on well-formed page URLs in the theorems below. -/
def resolveHref (pageUrl href : List Char) : List Char :=
  if href.take 1 = ['/'] then
    ((splitSl pageUrl).getD 0 []) ++ '/' :: '/' :: (((splitSl pageUrl).getD 2 []) ++ href)
  else if ("http".toList).isPrefixOf href then href
  else joinSl (splitSl pageUrl).dropLast ++ '/' :: href

def resolveHrefS (pageUrl href : String) : String :=
  String.mk (resolveHref pageUrl.toList href.toList)

theorem splitSl_ne_nil (l : List Char) : splitSl l ≠ [] := by
  cases l with
  | nil => simp [splitSl]
  | cons c rest =>
    by_cases h : c = '/'
    · simp [splitSl, h]
    · simp only [splitSl, if_neg h]
      cases splitSl rest with
      | nil => simp
      | cons p ps => simp

theorem splitSl_append_slash (a b : List Char) (ha : '/' ∉ a) :
    splitSl (a ++ '/' :: b) = a :: splitSl b := by
  induction a with
  | nil => simp [splitSl]
  | cons c rest ih =>
    have hc : ¬ c = '/' := fun h => ha (h ▸ List.mem_cons_self c rest)
    have hrest : '/' ∉ rest := fun h => ha (List.mem_cons_of_mem c h)
    simp only [List.cons_append, splitSl, if_neg hc, List.append_eq, ih hrest]

theorem splitSl_no_slash (a : List Char) (ha : '/' ∉ a) : splitSl a = [a] := by
  induction a with
  | nil => rfl
  | cons c rest ih =>
    have hc : ¬ c = '/' := fun h => ha (h ▸ List.mem_cons_self c rest)
    have hrest : '/' ∉ rest := fun h => ha (List.mem_cons_of_mem c h)
    simp only [splitSl, if_neg hc, ih hrest]

theorem splitSl_append_general (a b : List Char) :
    splitSl (a ++ '/' :: b) = splitSl a ++ splitSl b := by
  induction a with
  | nil => simp [splitSl]
  | cons c rest ih =>
    by_cases hc : c = '/'
    · subst hc
      simp [splitSl, ih]
    · simp only [List.cons_append, splitSl, if_neg hc, List.append_eq, ih]
      cases h : splitSl rest with
      | nil => exact absurd h (splitSl_ne_nil rest)
      | cons p ps => simp

theorem joinSl_splitSl (l : List Char) : joinSl (splitSl l) = l := by
  induction l with
  | nil => rfl
  | cons c rest ih =>
    by_cases hc : c = '/'
    · subst hc
      simp only [splitSl, if_pos rfl]
      cases h : splitSl rest with
      | nil => exact absurd h (splitSl_ne_nil rest)
      | cons p ps =>
        rw [h] at ih
        simp [joinSl, ih]
    · simp only [splitSl, if_neg hc]
      cases h : splitSl rest with
      | nil => exact absurd h (splitSl_ne_nil rest)
      | cons p ps =>
        rw [h] at ih
        cases ps with
        | nil => simp [joinSl] at ih ⊢; rw [ih]
        | cons q qs =>
          simp only [joinSl] at ih ⊢
          rw [List.cons_append, ih]

/-- C5: a leading-slash target resolves to the page's scheme and host followed
by the target; a target that is neither site-relative nor `http`-absolute
resolves against the page URL's directory (the URL up to its last slash); and
the spec's concrete example holds. -/
theorem booking_url_resolution :
    resolveHrefS "https://example.com/a/b.html" "/boka/123" =
      "https://example.com/boka/123" ∧
    (∀ scheme host path href : List Char, '/' ∉ scheme → '/' ∉ host →
      href.take 1 = ['/'] →
      resolveHref (scheme ++ '/' :: '/' :: (host ++ '/' :: path)) href =
        scheme ++ '/' :: '/' :: (host ++ href)) ∧
    (∀ dir seg href : List Char, '/' ∉ seg → href.take 1 ≠ ['/'] →
      ¬ ("http".toList).isPrefixOf href →
      resolveHref (dir ++ '/' :: seg) href = dir ++ '/' :: href) := by
  refine ⟨by decide, ?_, ?_⟩
  · intro scheme host path href hs hh habs
    have h1 : splitSl (scheme ++ '/' :: ('/' :: (host ++ '/' :: path))) =
        scheme :: splitSl ('/' :: (host ++ '/' :: path)) :=
      splitSl_append_slash scheme _ hs
    have h2 : splitSl ('/' :: (host ++ '/' :: path)) = [] :: splitSl (host ++ '/' :: path) := by
      simp [splitSl]
    have h3 : splitSl (host ++ '/' :: path) = host :: splitSl path :=
      splitSl_append_slash host _ hh
    simp only [resolveHref, if_pos habs, h1, h2, h3]
    simp [List.getD]
  · intro dir seg href hseg habs hhttp
    have h1 : splitSl (dir ++ '/' :: seg) = splitSl dir ++ splitSl seg :=
      splitSl_append_general dir seg
    have h2 : splitSl seg = [seg] := splitSl_no_slash seg hseg
    simp only [resolveHref, if_neg habs, if_neg hhttp, h1, h2]
    rw [List.dropLast_concat, joinSl_splitSl]

theorem booking_url_resolution_witness :
    resolveHref ("https:".toList ++ '/' :: '/' :: ("example.com".toList ++ '/' :: "a/b.html".toList))
        "/boka/123".toList =
      "https:".toList ++ '/' :: '/' :: ("example.com".toList ++ "/boka/123".toList) :=
  booking_url_resolution.2.1 "https:".toList "example.com".toList "a/b.html".toList
    "/boka/123".toList (by decide) (by decide) (by decide)

/-! ## Validation (`ContentExtractor.validate_extracted_data`, lines 292–323) -/

structure ValidationResult where
  is_valid : Bool
  missing_fields : List String
  warnings : List String
deriving DecidableEq

/-- `validate_extracted_data`: the required-field loop (`if not getattr(data,
field)` — Python truthiness, so `None` and `""` both count as missing)
followed by the two non-blocking quality warnings. -/
def validateExtractedData (data : MovieData) : ValidationResult :=
  let requiredFields : List (String × Option String) :=
    [("title", data.title), ("screening_datetime", data.screening_datetime),
     ("location", data.location), ("booking_url", data.booking_url)]
  let afterFields := requiredFields.foldl
    (fun (r : ValidationResult) (f : String × Option String) =>
      if pyTruthy f.2 then r
      else { r with is_valid := false, missing_fields := r.missing_fields ++ [f.1] })
    ({ is_valid := true, missing_fields := [], warnings := [] } : ValidationResult)
  let w1 : List String :=
    match data.title with
    | some t => if !t.toList.isEmpty && t.toList.length < 2 then ["Title seems too short"] else []
    | none => []
  let w2 : List String :=
    match data.booking_url with
    | some b =>
      if !b.toList.isEmpty && !("http".toList.isPrefixOf b.toList) then
        ["Booking URL may be malformed"]
      else []
    | none => []
  { afterFields with warnings := afterFields.warnings ++ w1 ++ w2 }

/-- C6 counterexample: a record whose title is the *empty string* (present,
not absent) is nevertheless reported in `missing_fields` and invalidates the
record, because the code tests Python truthiness rather than absence. -/
theorem validate_empty_title_counterexample :
    (validateExtractedData
      ⟨some "", some "2026-02-26 19:00", some "Borås Bio Röda Kvarn",
       some "http://example.com/boka", none, none⟩).missing_fields = ["title"] ∧
    (validateExtractedData
      ⟨some "", some "2026-02-26 19:00", some "Borås Bio Röda Kvarn",
       some "http://example.com/boka", none, none⟩).is_valid = false ∧
    (⟨some "", some "2026-02-26 19:00", some "Borås Bio Röda Kvarn",
      some "http://example.com/boka", none, none⟩ : MovieData).title ≠ none := by
  refine ⟨by decide, by decide, by decide⟩

/-- C6 (amended): `missing_fields` lists exactly the required fields that are
absent *or empty* (Python-falsy), in the fixed order; `is_valid` is true iff
`missing_fields` is empty and equals the conjunction of the four truthiness
tests (so the warnings never affect it); the warnings flag a 1-character title
and a booking URL not starting with `http`; and a record missing only
`booking_url` yields `is_valid = false`, `missing_fields = ["booking_url"]`. -/
theorem validate_extracted_data_spec :
    (∀ data : MovieData,
      (validateExtractedData data).missing_fields =
        (if pyTruthy data.title then [] else ["title"]) ++
        (if pyTruthy data.screening_datetime then [] else ["screening_datetime"]) ++
        (if pyTruthy data.location then [] else ["location"]) ++
        (if pyTruthy data.booking_url then [] else ["booking_url"])) ∧
    (∀ data : MovieData,
      (validateExtractedData data).is_valid =
        (pyTruthy data.title && pyTruthy data.screening_datetime &&
         pyTruthy data.location && pyTruthy data.booking_url)) ∧
    (∀ data : MovieData,
      (validateExtractedData data).is_valid = true ↔
        (validateExtractedData data).missing_fields = []) ∧
    validateExtractedData
        ⟨some "Casablanca", some "2026-02-26 19:00", some "Borås Bio Röda Kvarn",
         none, none, none⟩ =
      ⟨false, ["booking_url"], []⟩ := by
  have hmain : ∀ data : MovieData,
      (validateExtractedData data).missing_fields =
        (if pyTruthy data.title then [] else ["title"]) ++
        (if pyTruthy data.screening_datetime then [] else ["screening_datetime"]) ++
        (if pyTruthy data.location then [] else ["location"]) ++
        (if pyTruthy data.booking_url then [] else ["booking_url"]) ∧
      (validateExtractedData data).is_valid =
        (pyTruthy data.title && pyTruthy data.screening_datetime &&
         pyTruthy data.location && pyTruthy data.booking_url) := by
    intro data
    cases ht : pyTruthy data.title <;>
      cases hs : pyTruthy data.screening_datetime <;>
        cases hl : pyTruthy data.location <;>
          cases hb : pyTruthy data.booking_url <;>
            simp [validateExtractedData, ht, hs, hl, hb]
  refine ⟨fun d => (hmain d).1, fun d => (hmain d).2, ?_, by decide⟩
  intro data
  rw [(hmain data).1, (hmain data).2]
  cases ht : pyTruthy data.title <;>
    cases hs : pyTruthy data.screening_datetime <;>
      cases hl : pyTruthy data.location <;>
        cases hb : pyTruthy data.booking_url <;> simp
